import Mathlib

/-!
Verification of the GitLab provider adapter (`GitLabProvider`): a shallow
embedding of its identifier codec, pagination walker, discussion assembly,
pending-review store, request cache, error classifier and the operations
built on them, together with theorems settling the specified properties.

JavaScript strings are modelled as `List Char` (abbreviated `Str`), so that
the provider's string operations (`split`, `trim`, substring tests,
lexicographic `<`) are structurally recursive and computable.
-/

/-- JavaScript strings, as lists of characters. -/
abbrev Str := List Char

instance {ε α : Type} [DecidableEq ε] [DecidableEq α] : DecidableEq (Except ε α) := fun a b =>
  match a, b with
  | .ok x, .ok y =>
    if h : x = y then isTrue (congrArg Except.ok h)
    else isFalse fun hc => h (by cases hc; rfl)
  | .error x, .error y =>
    if h : x = y then isTrue (congrArg Except.error h)
    else isFalse fun hc => h (by cases hc; rfl)
  | .ok _, .error _ => isFalse fun hc => Except.noConfusion hc
  | .error _, .ok _ => isFalse fun hc => Except.noConfusion hc

/-- JS `s.split(sep)` for a single-character separator: splits on every
occurrence of `sep`, keeping empty segments (`"".split(sep) = [""]`). -/
def splitOnChar (sep : Char) : Str → List Str
  | [] => [[]]
  | c :: cs =>
    let rest := splitOnChar sep cs
    if c = sep then [] :: rest
    else
      match rest with
      | [] => [[c]]
      | r :: rs => (c :: r) :: rs

/-- `splitOnChar` never returns an empty list of segments. -/
theorem splitOnChar_ne_nil (sep : Char) (s : Str) : splitOnChar sep s ≠ [] := by
  induction s with
  | nil => simp [splitOnChar]
  | cons c cs ih =>
    simp only [splitOnChar]
    cases h : splitOnChar sep cs with
    | nil => exact absurd h ih
    | cons r rs => by_cases hc : c = sep <;> simp [hc, h]

/-- Splitting a separator-free string yields the single segment. -/
theorem splitOnChar_of_not_mem {sep : Char} {s : Str} (h : sep ∉ s) :
    splitOnChar sep s = [s] := by
  induction s with
  | nil => rfl
  | cons c cs ih =>
    simp only [List.mem_cons, not_or] at h
    simp only [splitOnChar, ih h.2]
    have hc : ¬ c = sep := fun hcs => h.1 hcs.symm
    simp [hc]

/-- Splitting `p ++ sep :: i` where neither part contains the separator
yields exactly the two parts, in order. -/
theorem splitOnChar_append {sep : Char} {p i : Str} (hp : sep ∉ p) (hi : sep ∉ i) :
    splitOnChar sep (p ++ sep :: i) = [p, i] := by
  induction p with
  | nil => simp [splitOnChar, splitOnChar_of_not_mem hi]
  | cons c cs ih =>
    simp only [List.mem_cons, not_or] at hp
    have hc : ¬ c = sep := fun hcs => hp.1 hcs.symm
    simp [List.cons_append, splitOnChar, hc, ih hp.2]

/-- The composite merge-request identifier: the JSON object
`JSON.stringify(\x7b id, full \x7d)` produced when a pull request is
listed or fetched, and parsed back by every operation.  JSON
serialization of this two-string record round-trips, so the token is
modelled by the record itself. -/
structure MergeRequestFullId where
  id : Str
  full : Str
deriving DecidableEq

/-- `encode(numericId, fullReference)`: builds the serialized token
(`JSON.stringify` at the call sites producing `idComputed` and listing
ids). -/
def encodeId (id : Str) (full : Str) : MergeRequestFullId :=
  { id := id, full := full }

/-- The decoded form produced by `parseId`. JS indexing past the end of
`split`'s result yields `undefined`, modelled by `Option`. -/
structure ParsedId where
  projectFullPath : Option Str
  iid : Option Str
deriving DecidableEq

/-- `parseId(pullRequestId)`: `JSON.parse` the token and split `full` on
the `!` separator; element 0 is the project path, element 1 the internal
id. -/
def parseId (token : MergeRequestFullId) : ParsedId :=
  let parts := splitOnChar '!' token.full
  { projectFullPath := parts[0]?, iid := parts[1]? }

/-- A discussion note as returned by the detail GraphQL query. -/
structure GLNote where
  id : Str
  body : Str
  createdAt : Str
deriving DecidableEq

/-- A thread-head note after assembly: the head of a discussion's note
list together with the `replies` array attached to it. -/
structure GLNoteWithReplies where
  id : Str
  body : Str
  createdAt : Str
  replies : List GLNote
deriving DecidableEq

/-- The note-splitting step of `getPullRequest`: for a non-empty note
list, `nodes[0].replies` is set to `nodes.filter(x => x.id != nodes[0].id)`
and the node list is truncated to length 1 (`nodes.length = 1`).  An
empty note list is left untouched. -/
def splitNotes (notes : List GLNote) : List GLNoteWithReplies :=
  match notes with
  | [] => []
  | n0 :: _ =>
    [{ id := n0.id, body := n0.body, createdAt := n0.createdAt,
       replies := notes.filter (fun x => !decide (x.id = n0.id)) }]

/-- The whitespace characters relevant to JS `String.prototype.trim` in
this adapter's headers. -/
def isJsSpace (c : Char) : Bool :=
  c = ' ' || c = '\t' || c = '\n' || c = '\r'

/-- JS `s.trim()`: strip whitespace from both ends. -/
def trimStr (s : Str) : Str :=
  ((s.dropWhile isJsSpace).reverse.dropWhile isJsSpace).reverse

/-- JS `url.substring(1, url.length - 1)`: drops the enclosing angle
brackets of a Link-header URL.  (`substring` swaps its arguments when
`start > end`, so a one-character string is returned unchanged.) -/
def jsSubstringInner (url : Str) : Str :=
  if url.length = 1 then url else (url.drop 1).dropLast

/-- JS `s.replace(pat, "")` for a plain-string pattern: removes the first
occurrence of `pat`, returning `s` unchanged when `pat` is empty or does
not occur. -/
def removeFirstOcc (pat : Str) : Str → Str
  | [] => []
  | c :: cs =>
    if !pat.isEmpty && pat.isPrefixOf (c :: cs) then (c :: cs).drop pat.length
    else c :: removeFirstOcc pat cs

/-- The literal relation marker matched by `nextPage`. -/
def relNextLit : Str := "rel=\"next\"".data

/-- The `for (const link of links)` loop body of `nextPage`: each segment
is split on `;` into `[rawUrl, rawRel]`; a segment with no `;` makes
`rawRel` `undefined` and `rawRel.trim()` throw (modelled as `.error ()`);
a segment whose trimmed relation is `rel="next"` returns the URL stripped
of its angle brackets and of the base-URL prefix. -/
def nextPageLoop (baseUrl : Str) : List Str → Except Unit (Option Str)
  | [] => .ok none
  | link :: links =>
    let parts := splitOnChar ';' link
    match parts[1]? with
    | none => .error ()
    | some rawRel =>
      let url := trimStr (parts.headD [])
      let rel := trimStr rawRel
      if rel = relNextLit then .ok (some (removeFirstOcc baseUrl (jsSubstringInner url)))
      else nextPageLoop baseUrl links

/-- `nextPage(response)`: extract from the Link header the URL whose
relation is `next`, stripped of the base URL; `undefined` (`none`) when
the header is blank or no such relation exists. -/
def nextPage (baseUrl : Str) (linkHeader : Str) : Except Unit (Option Str) :=
  if (trimStr linkHeader).length = 0 then .ok none
  else nextPageLoop baseUrl (splitOnChar ',' linkHeader)

/-- One page of a paginated REST response: the body plus the Link header
used for pagination. -/
structure PageResponse (α : Type) where
  items : List α
  linkHeader : Str
deriving DecidableEq

/-- The pagination loop of `_getPullRequestsByState` (and the other
listing endpoints): fetch a page, append its items, follow the `next`
link, and stop when the `while (url)` test fails — `url` is falsy both
when `nextPage` yields `undefined` and when it yields the empty string
(a next URL that stripped down to nothing).  A `nextPage` failure is
caught by the surrounding `try`, after the current page's items were
already accumulated, so it also ends the loop.  The `Nat` argument is a
recursion bound (the loop itself has none); the result also counts how
many times the transport was called. -/
def fetchAllPages {α : Type} (transport : Str → PageResponse α) (baseUrl : Str) :
    Nat → Str → List α × Nat
  | 0, _ => ([], 0)
  | fuel + 1, url =>
    let resp := transport url
    match nextPage baseUrl resp.linkHeader with
    | .ok (some nextUrl) =>
      if nextUrl.isEmpty then (resp.items, 1)
      else
        let rest := fetchAllPages transport baseUrl fuel nextUrl
        (resp.items ++ rest.1, rest.2 + 1)
    | _ => (resp.items, 1)

/-- The suppressed-exception categories of the error classifier
(`ReportSuppressedMessages` in `agentError`). -/
inductive ReportSuppressedMessages where
  | networkError
  | connectionError
  | accessTokenInvalid
deriving DecidableEq

/-- JS `s.match(new RegExp(pat))` for the literal (metacharacter-free)
patterns used by the classifier: a substring test. -/
def containsPattern (pat : Str) : Str → Bool
  | [] => pat.isEmpty
  | c :: cs => pat.isPrefixOf (c :: cs) || containsPattern pat cs

/-- The network-transient message patterns of `_isSuppressedException`. -/
def networkErrors : List Str :=
  ["ENOTFOUND".data, "ETIMEDOUT".data, "EAI_AGAIN".data, "ECONNRESET".data,
   "ECONNREFUSED".data, "ENETDOWN".data, "ENETUNREACH".data,
   "socket disconnected before secure".data, "socket hang up".data]

/-- One entry of a GraphQL error list in a failure's response body. -/
structure GraphQLErrorEntry where
  type : Str
deriving DecidableEq

/-- The structured response body attached to a transport failure. -/
structure ExceptionResponse where
  message : Option Str
  errors : Option (List GraphQLErrorEntry)
deriving DecidableEq

/-- A failure as inspected by `_isSuppressedException`: a message and an
optional structured response body.  `none`/empty model JS falsiness. -/
structure ProviderException where
  message : Option Str
  response : Option ExceptionResponse
deriving DecidableEq

/-- JS truthiness of an optional string (`undefined` and `""` are falsy). -/
def truthyStr : Option Str → Bool
  | some s => !s.isEmpty
  | none => false

/-- `_isSuppressedException`: network patterns first, then the GraphQL
404 pattern, then bad-credentials / FORBIDDEN response bodies; anything
else is unclassified (`undefined`). -/
def isSuppressedException (ex : ProviderException) : Option ReportSuppressedMessages :=
  if truthyStr ex.message
      && networkErrors.any (fun e => containsPattern e (ex.message.getD [])) then
    some .networkError
  else if truthyStr ex.message
      && containsPattern "GraphQL Error (Code: 404)".data (ex.message.getD []) then
    some .connectionError
  else if (ex.response.elim false fun r => decide (r.message = some "Bad credentials".data))
      || (ex.response.elim false fun r =>
            (r.errors.elim false fun es => es.any fun e => decide (e.type = "FORBIDDEN".data))) then
    some .accessTokenInvalid
  else
    none

/-- How `query` re-raises a failed request: a classified failure is
wrapped in an `InternalError` carrying the suppressed category, an
unclassified one is re-thrown unchanged. -/
inductive QueryFailure where
  | internalError (kind : ReportSuppressedMessages)
  | original (ex : ProviderException)
deriving DecidableEq

/-- The `catch` branch of `query`. -/
def queryFailureOf (ex : ProviderException) : QueryFailure :=
  match isSuppressedException ex with
  | some kind => .internalError kind
  | none => .original ex

/-- Association-list lookup, modelling `Map.prototype.get`. -/
def mapGet? {β : Type} (m : List (Str × β)) (k : Str) : Option β :=
  (m.find? fun p => decide (p.1 = k)).map (·.2)

/-- `Map.prototype.has`. -/
def mapHas {β : Type} (m : List (Str × β)) (k : Str) : Bool :=
  (mapGet? m k).isSome

/-- `Map.prototype.set`: the key is now bound to `v`. -/
def mapSet {β : Type} (m : List (Str × β)) (k : Str) (v : β) : List (Str × β) :=
  (k, v) :: m.filter fun p => !decide (p.1 = k)

/-- `Map.prototype.delete`: the key is unbound. -/
def mapDelete {β : Type} (m : List (Str × β)) (k : Str) : List (Str × β) :=
  m.filter fun p => !decide (p.1 = k)

theorem find?_filter_ne {β : Type} (m : List (Str × β)) (k k' : Str) (h : k' ≠ k) :
    (m.filter fun p => !decide (p.1 = k)).find? (fun p => decide (p.1 = k'))
      = m.find? (fun p => decide (p.1 = k')) := by
  induction m with
  | nil => rfl
  | cons a m ih =>
    have hkk' : ¬ k = k' := fun hc => h hc.symm
    by_cases hak : a.1 = k
    · have hak' : ¬ a.1 = k' := fun hc => h (hc ▸ hak)
      simp [List.filter, List.find?, hak, hak', hkk', ih]
    · by_cases hak' : a.1 = k'
      · simp [List.filter, List.find?, hak, hak', h]
      · simp [List.filter, List.find?, hak, hak', ih]

theorem mapGet?_set_self {β : Type} (m : List (Str × β)) (k : Str) (v : β) :
    mapGet? (mapSet m k v) k = some v := by
  simp [mapGet?, mapSet, List.find?]

theorem mapGet?_set_ne {β : Type} (m : List (Str × β)) (k k' : Str) (v : β) (h : k' ≠ k) :
    mapGet? (mapSet m k v) k' = mapGet? m k' := by
  have hk : ¬ (k = k') := fun hc => h hc.symm
  simp [mapGet?, mapSet, List.find?, hk, find?_filter_ne m k k' h]

theorem mapGet?_delete_self {β : Type} (m : List (Str × β)) (k : Str) :
    mapGet? (mapDelete m k) k = none := by
  simp only [mapGet?, mapDelete, Option.map_eq_none']
  rw [List.find?_eq_none]
  intro p hp
  rcases List.mem_filter.mp hp with ⟨-, hpk⟩
  simpa using hpk

theorem mapGet?_delete_ne {β : Type} (m : List (Str × β)) (k k' : Str) (h : k' ≠ k) :
    mapGet? (mapDelete m k) k' = mapGet? m k' := by
  simp [mapGet?, mapDelete, find?_filter_ne m k k' h]

/-- The request staged by `createPullRequestReviewComment` /
`createPullRequestInlineReviewComment`. -/
structure ReviewCommentRequest where
  pullRequestId : MergeRequestFullId
  text : Str
  filePath : Str
  startLine : Option Nat
  position : Option Nat
  leftSha : Option Str
  sha : Option Str
deriving DecidableEq

/-- An entry of `_pendingReviewStore`.  The first staged comment is
stored as the request itself (`set(id, [request])`); every later one is
wrapped in an object with a single `request` field (`push(\x7b request \x7d)`),
so its `text` / `filePath` / `startLine` properties read as `undefined`. -/
inductive PendingEntry where
  | raw (request : ReviewCommentRequest)
  | wrapped (request : ReviewCommentRequest)
deriving DecidableEq

/-- `entry.text` as read by `getPullRequest`'s synthetic-note builder. -/
def PendingEntry.textOf : PendingEntry → Option Str
  | .raw r => some r.text
  | .wrapped _ => none

/-- `entry.filePath`. -/
def PendingEntry.filePathOf : PendingEntry → Option Str
  | .raw r => some r.filePath
  | .wrapped _ => none

/-- `entry.startLine`. -/
def PendingEntry.startLineOf : PendingEntry → Option Nat
  | .raw r => r.startLine
  | .wrapped _ => none

/-- A synthetic note rendered from a staged entry: placeholder author and
ids elided; `state` is the literal `"PENDING"`. -/
structure PendingNote where
  state : Str
  body : Option Str
  bodyText : Option Str
  createdAt : Str
  oldPath : Option Str
  newPath : Option Str
  newLine : Option Nat
deriving DecidableEq

/-- The note object built for each staged entry inside `getPullRequest`. -/
def pendingNoteOf (now : Str) (e : PendingEntry) : PendingNote :=
  { state := "PENDING".data, body := e.textOf, bodyText := e.textOf, createdAt := now,
    oldPath := e.filePathOf, newPath := e.filePathOf, newLine := e.startLineOf }

/-- An activity event mapped into the timeline (`type` is
`"merge-request"`, `"label"` or `"milestone"`). -/
structure GLTimelineEvent where
  type : Str
  action : Str
  createdAt : Str
deriving DecidableEq

/-- A discussion before the note-splitting step. -/
structure GLDiscussion where
  id : Str
  createdAt : Str
  notes : List GLNote
deriving DecidableEq

/-- A discussion after the note-splitting step. -/
structure GLDiscussionOut where
  id : Str
  createdAt : Str
  notes : List GLNoteWithReplies
deriving DecidableEq

/-- One element of `response.project.mergeRequest.discussions.nodes`: the
array is heterogeneous, holding discussions, the synthetic `_pending`
node, and the pushed activity events. -/
inductive TimelineNode where
  | rawDiscussion (d : GLDiscussion)
  | discussion (d : GLDiscussionOut)
  | pendingReview (createdAt : Str) (notes : List PendingNote)
  | event (e : GLTimelineEvent)
deriving DecidableEq

/-- `node.createdAt`, the sort key. -/
def TimelineNode.createdAt : TimelineNode → Str
  | .rawDiscussion d => d.createdAt
  | .discussion d => d.createdAt
  | .pendingReview c _ => c
  | .event e => e.createdAt

/-- Whether a node is the synthetic `_pending` discussion. -/
def TimelineNode.isPendingNode : TimelineNode → Bool
  | .pendingReview _ _ => true
  | _ => false

/-- The final `discussions.nodes.sort((a, b) => a.createdAt < b.createdAt
? -1 : a.createdAt > b.createdAt ? 1 : 0)`: a stable sort ascending by
lexicographic comparison of the `createdAt` strings. -/
def sortNodes (nodes : List TimelineNode) : List TimelineNode :=
  nodes.insertionSort fun a b => a.createdAt ≤ b.createdAt

/-- A raw project activity event (`GET /projects/:id/events`). -/
structure RawProjectEvent where
  action_name : Str
  created_at : Str
deriving DecidableEq

/-- A raw label / milestone resource event. -/
structure RawResourceEvent where
  action : Str
  created_at : Str
deriving DecidableEq

/-- `_projectEvents`: drop `"commented on"` and `"pushed to"` events
(those are represented by discussions), tag the rest `"merge-request"`. -/
def projectEventsOf (events : List RawProjectEvent) : List TimelineNode :=
  (events.filter fun e =>
      !decide (e.action_name = "commented on".data)
        && !decide (e.action_name = "pushed to".data)).map fun e =>
    .event { type := "merge-request".data, action := e.action_name, createdAt := e.created_at }

/-- `_labelEvents`. -/
def labelEventsOf (events : List RawResourceEvent) : List TimelineNode :=
  events.map fun e =>
    .event { type := "label".data, action := e.action, createdAt := e.created_at }

/-- `_milestoneEvents`. -/
def milestoneEventsOf (events : List RawResourceEvent) : List TimelineNode :=
  events.map fun e =>
    .event { type := "milestone".data, action := e.action, createdAt := e.created_at }

/-- The assembled detail-fetch response, projected to the fields the
verified properties concern: the merge request's GraphQL id, the
`pendingReview.comments.totalCount` summary, and the discussion
timeline. -/
structure PRResponse where
  mergeRequestId : Str
  pendingReviewCount : Option Nat
  timeline : List TimelineNode
deriving DecidableEq

/-- The adapter instance's mutable maps: `_pullRequestCache` (detail
responses keyed by the parsed numeric/GraphQL id) and
`_pendingReviewStore` (staged inline comments keyed the same way). -/
structure GitLabState where
  pullRequestCache : List (Str × PRResponse)
  pendingReviewStore : List (Str × List PendingEntry)
deriving DecidableEq

/-- The payload of a `DidChangePullRequestComments` change notice sent to
the session. -/
structure PRCommentsChangedNotice where
  pullRequestId : Str
  filePath : Option Str
  commentId : Option Str
deriving DecidableEq

/-- `createPullRequestReviewComment` (also the body of
`createPullRequestInlineReviewComment`): stage the comment under the
parsed id — appended as a `\x7b request \x7d` wrapper when the id already has
entries, stored bare otherwise — then delete the detail cache entry and
notify with the id and file path. -/
def createPullRequestReviewComment (request : ReviewCommentRequest) (st : GitLabState) :
    Bool × GitLabState × List PRCommentsChangedNotice :=
  let actualPullRequestId := request.pullRequestId.id
  let store :=
    if mapHas st.pendingReviewStore actualPullRequestId then
      let existingPendingReviews := (mapGet? st.pendingReviewStore actualPullRequestId).getD []
      mapSet st.pendingReviewStore actualPullRequestId
        (existingPendingReviews ++ [PendingEntry.wrapped request])
    else
      mapSet st.pendingReviewStore actualPullRequestId [PendingEntry.raw request]
  (true,
   { pullRequestCache := mapDelete st.pullRequestCache actualPullRequestId,
     pendingReviewStore := store },
   [{ pullRequestId := actualPullRequestId, filePath := some request.filePath,
      commentId := none }])

/-- `getPendingReview` (the adapter's `hasPendingReview` query): whether
`_pendingReviewStore` has the parsed id as a key. -/
def getPendingReview (pullRequestId : MergeRequestFullId) (st : GitLabState) : Bool :=
  mapHas st.pendingReviewStore pullRequestId.id

/-- A network call issued by `submitReview`. -/
inductive NetworkCall where
  | postInlineComment (index : Nat)
  | postTopLevelComment
deriving DecidableEq

/-- The `submitReview` request. An absent `eventType` is the empty
string. -/
structure SubmitReviewRequest where
  pullRequestId : MergeRequestFullId
  text : Str
  eventType : Str
deriving DecidableEq

/-- Everything observable about a `submitReview` run: its
result-or-exception, the final adapter state, the network calls issued
and the change notices emitted. -/
structure SubmitOutcome where
  result : Except Str Bool
  state : GitLabState
  calls : List NetworkCall
  notices : List PRCommentsChangedNotice
deriving DecidableEq

/-- The flush loop of `submitReview`: each staged entry is posted as an
inline comment (`createPullRequestInlineComment` →
`createCommitComment`); a successful post deletes the detail cache entry
and emits a change notice, a failed one (`postOutcome i = false`) is
logged and skipped. -/
def flushPendingComments (actualPullRequestId : Str) (postOutcome : Nat → Bool) :
    Nat → List PendingEntry → GitLabState
      → GitLabState × List NetworkCall × List PRCommentsChangedNotice
  | _, [], st => (st, [], [])
  | i, _ :: rest, st =>
    let step :=
      if postOutcome i then
        ({ st with pullRequestCache := mapDelete st.pullRequestCache actualPullRequestId },
         [({ pullRequestId := actualPullRequestId, filePath := none,
             commentId := none } : PRCommentsChangedNotice)])
      else (st, [])
    let next := flushPendingComments actualPullRequestId postOutcome (i + 1) rest step.1
    (next.1, NetworkCall.postInlineComment i :: next.2.1, step.2 ++ next.2.2)

/-- `submitReview`: default a falsy `eventType` to `"COMMENT"`, reject
anything outside the fixed enumeration before any network call, flush
the staged comments best-effort and then rebind the store key to the
empty list, and finally post the summary comment when `text` is
non-empty. -/
def submitReview (request : SubmitReviewRequest) (postOutcome : Nat → Bool)
    (st : GitLabState) : SubmitOutcome :=
  let actualPullRequestId := request.pullRequestId.id
  let eventType := if request.eventType.isEmpty then "COMMENT".data else request.eventType
  if eventType ≠ "COMMENT".data ∧ eventType ≠ "APPROVE".data
      ∧ eventType ≠ "REQUEST_CHANGES".data then
    { result := .error "Invalid eventType".data, state := st, calls := [], notices := [] }
  else
    let flushed :=
      match mapGet? st.pendingReviewStore actualPullRequestId with
      | some entries =>
        if entries.length ≠ 0 then
          let f := flushPendingComments actualPullRequestId postOutcome 0 entries st
          ({ f.1 with
              pendingReviewStore := mapSet f.1.pendingReviewStore actualPullRequestId [] },
           f.2.1, f.2.2)
        else (st, [], [])
      | none => (st, [], [])
    let summaryCalls : List NetworkCall :=
      if request.text.isEmpty then [] else [NetworkCall.postTopLevelComment]
    { result := .ok true, state := flushed.1, calls := flushed.2.1 ++ summaryCalls,
      notices := flushed.2.2 }

/-- A UI directive returned by a mutation endpoint. -/
inductive Directive where
  | updatePullRequestLocked (discussionLocked : Bool)
  | updatePullRequestMerged (state : Str) (mergedAt : Option Str) (updatedAt : Option Str)
  | updatePullRequestMilestone (milestone : Option Str)
  | updatePullRequestWip (workInProgress : Bool) (title : Str)
  | setLabels (labels : List Str)
  | toggleApprovedBy (add : Bool) (approvers : Option (List Str))
  | removeNode (id : Str)
deriving DecidableEq

/-- `lockPullRequest` (`unlockPullRequest` is identical with the flag
flipped): parse the id, `PUT` the lock flag (`discussionLocked` is the
`discussion_locked` field of the REST response), and return a directive.
The function never touches `_pullRequestCache` and emits no change
notice, so the adapter state is returned unchanged. -/
def lockPullRequest (pullRequestId : MergeRequestFullId) (discussionLocked : Bool)
    (st : GitLabState) : List Directive × GitLabState :=
  let _parsed := parseId pullRequestId
  ([Directive.updatePullRequestLocked discussionLocked], st)

/-- The REST body returned by the `merge` endpoint. -/
structure MergeRestResult where
  state : Str
  merged_at : Option Str
  updated_at : Option Str
deriving DecidableEq

/-- `mergePullRequest`: parse the id and `PUT .../merge`; on failure the
exception is logged and `undefined` returned.  Like `lockPullRequest`,
it never touches `_pullRequestCache`. -/
def mergePullRequest (pullRequestId : MergeRequestFullId)
    (restResult : Except Str MergeRestResult) (st : GitLabState) :
    Option (List Directive) × GitLabState :=
  let _parsed := parseId pullRequestId
  match restResult with
  | .ok r => (some [Directive.updatePullRequestMerged r.state r.merged_at r.updated_at], st)
  | .error _ => (none, st)

/-- `toggleMilestoneOnPullRequest`: parse the id and `PUT` the milestone
id (`restResult` carries the `milestone` field of the REST body); a
failure is logged and `undefined` returned.  It never touches
`_pullRequestCache` and emits no change notice. -/
def toggleMilestoneOnPullRequest (pullRequestId : MergeRequestFullId)
    (restResult : Except Str (Option Str)) (st : GitLabState) :
    Option (List Directive) × GitLabState :=
  let _parsed := parseId pullRequestId
  match restResult with
  | .ok m => (some [Directive.updatePullRequestMilestone m], st)
  | .error _ => (none, st)

/-- The merge-request fields of a `mergeRequestSetWip` mutation reply. -/
structure WipMutationResult where
  workInProgress : Bool
  title : Str
deriving DecidableEq

/-- `setWorkInProgressOnPullRequest`: parse the id and issue the
`MergeRequestSetWip` mutation; a failure is logged and `undefined`
returned.  It never touches `_pullRequestCache` and emits no change
notice. -/
def setWorkInProgressOnPullRequest (pullRequestId : MergeRequestFullId)
    (mutationResult : Except Str WipMutationResult) (st : GitLabState) :
    Option (List Directive) × GitLabState :=
  let _parsed := parseId pullRequestId
  match mutationResult with
  | .ok r => (some [Directive.updatePullRequestWip r.workInProgress r.title], st)
  | .error _ => (none, st)

/-- `setLabelOnPullRequest`: parse the id and issue the
`MergeRequestSetLabels` mutation (`mutationResult` carries the label
titles of the reply); a failure is logged and `undefined` returned.  It
never touches `_pullRequestCache` and emits no change notice. -/
def setLabelOnPullRequest (pullRequestId : MergeRequestFullId)
    (mutationResult : Except Str (List Str)) (st : GitLabState) :
    Option (List Directive) × GitLabState :=
  let _parsed := parseId pullRequestId
  match mutationResult with
  | .ok labels => (some [Directive.setLabels labels], st)
  | .error _ => (none, st)

/-- `togglePullRequestApproval`: parse the id and `POST` the approve or
unapprove endpoint (`restResult` carries the `approved_by` user names).
An approve failure propagates to the caller; an unapprove failure (an
already-unapproved 404) is logged and leaves `response` undefined, so
the directive's data is `undefined`.  It never touches
`_pullRequestCache` and emits no change notice. -/
def togglePullRequestApproval (pullRequestId : MergeRequestFullId) (approve : Bool)
    (restResult : Except Str (List Str)) (st : GitLabState) :
    Except Str (List Directive) × GitLabState :=
  let _parsed := parseId pullRequestId
  match approve, restResult with
  | true, .ok users => (.ok [Directive.toggleApprovedBy true (some users)], st)
  | true, .error e => (.error e, st)
  | false, .ok users => (.ok [Directive.toggleApprovedBy false (some users)], st)
  | false, .error _ => (.ok [Directive.toggleApprovedBy false none], st)

/-- `deletePullRequestComment`: issue the `destroyNote` mutation, then
delete the detail cache entry and notify with the id and comment id. -/
def deletePullRequestComment (noteId : Str) (pullRequestId : MergeRequestFullId)
    (st : GitLabState) : List Directive × GitLabState × List PRCommentsChangedNotice :=
  let actualPullRequestId := pullRequestId.id
  ([Directive.removeNode noteId],
   { st with pullRequestCache := mapDelete st.pullRequestCache actualPullRequestId },
   [{ pullRequestId := actualPullRequestId, filePath := none, commentId := some noteId }])

/-- `createCommitComment` after a successful `POST .../discussions`:
delete the detail cache entry and notify with the id.  (On a failed post
the function throws before reaching this point.) -/
def createCommitComment (pullRequestId : MergeRequestFullId) (st : GitLabState) :
    GitLabState × List PRCommentsChangedNotice :=
  ({ st with pullRequestCache := mapDelete st.pullRequestCache pullRequestId.id },
   [{ pullRequestId := pullRequestId.id, filePath := none, commentId := none }])

/-- The merge-request detail delivered by the `GetPullRequest` GraphQL
query, projected to the fields the verified properties concern. -/
structure RawDetail where
  mergeRequestId : Str
  discussions : List GLDiscussion
deriving DecidableEq

/-- The provider's answers to the network calls one `getPullRequest` run
performs, each of which can fail: the detail query, the award-emoji
lookup, and the three auxiliary event fetches.  `now` is the wall-clock
ISO timestamp used for synthetic pending notes. -/
structure FetchEnv where
  now : Str
  detail : Except Str RawDetail
  awards : Except Str (List Str)
  projectEvents : Except Str (List RawProjectEvent)
  labelEvents : Except Str (List RawResourceEvent)
  milestoneEvents : Except Str (List RawResourceEvent)
deriving DecidableEq

/-- The synthetic `_pending` discussion node appended when
`_pendingReviewStore` has an entry (even an empty one) for the merge
request's GraphQL id. -/
def pendingReviewNode (now : Str) (pendingReview : List PendingEntry) : TimelineNode :=
  TimelineNode.pendingReview now (pendingReview.map (pendingNoteOf now))

/-- The response right after the note-splitting loop (lines preceding
the `_pullRequestCache.set` call): every discussion's note list split
into head plus replies. -/
def baseAssembly (raw : RawDetail) : PRResponse :=
  { mergeRequestId := raw.mergeRequestId, pendingReviewCount := none,
    timeline := raw.discussions.map fun d =>
      TimelineNode.discussion
        { id := d.id, createdAt := d.createdAt, notes := splitNotes d.notes } }

/-- The response after the pending-review block: when the store has an
entry (even `[]`) for the merge request's GraphQL id, a
`pendingReview.comments.totalCount` summary is set and the synthetic
node is pushed. -/
def assemblyWithPending (now : Str) (raw : RawDetail) (st : GitLabState) : PRResponse :=
  let base := baseAssembly raw
  match mapGet? st.pendingReviewStore raw.mergeRequestId with
  | some pendingReview =>
    { base with
        pendingReviewCount := some pendingReview.length,
        timeline := base.timeline ++ [pendingReviewNode now pendingReview] }
  | none => base

/-- The fully assembled response: the three auxiliary event streams
pushed in fan-out order (project, label, milestone) and the timeline
sorted. -/
def finalAssembly (now : Str) (raw : RawDetail) (st : GitLabState)
    (pes : List RawProjectEvent) (les mes : List RawResourceEvent) : PRResponse :=
  let withPending := assemblyWithPending now raw st
  { withPending with
      timeline := sortNodes (withPending.timeline
        ++ (projectEventsOf pes ++ labelEventsOf les ++ milestoneEventsOf mes)) }

/-- The body of `getPullRequest` after the cache check, mirroring its
`try` block step by step.  A detail-query failure leaves the response the
empty object (`none`) and caches nothing; an award-lookup failure aborts
before the note split and the cache write; otherwise the notes are split,
the response is cached (`_pullRequestCache.set` precedes the event
fetches, and the cached object aliases the response, so the entry always
holds the response as finally returned), the synthetic pending node is
appended, and the three auxiliary event streams are fetched — if any of
them fails the outer `catch` swallows the error and the partially
assembled response stands; on success the events are pushed and the
timeline sorted. -/
def getPullRequestCore (token : MergeRequestFullId) (env : FetchEnv) (st : GitLabState) :
    Option PRResponse × GitLabState :=
  match env.detail with
  | .error _ => (none, st)
  | .ok raw =>
    match env.awards with
    | .error _ =>
      (some { mergeRequestId := raw.mergeRequestId, pendingReviewCount := none,
              timeline := raw.discussions.map TimelineNode.rawDiscussion }, st)
    | .ok _ =>
      match env.projectEvents, env.labelEvents, env.milestoneEvents with
      | .ok pes, .ok les, .ok mes =>
        let final := finalAssembly env.now raw st pes les mes
        (some final, { st with pullRequestCache := mapSet st.pullRequestCache token.id final })
      | _, _, _ =>
        let withPending := assemblyWithPending env.now raw st
        (some withPending,
         { st with pullRequestCache := mapSet st.pullRequestCache token.id withPending })

/-- `getPullRequest`: with `force` the cache entry is deleted first;
without it a cached response is returned as-is with no network call. -/
def getPullRequest (token : MergeRequestFullId) (force : Bool) (env : FetchEnv)
    (st : GitLabState) : Option PRResponse × GitLabState :=
  if force then
    getPullRequestCore token env
      { st with pullRequestCache := mapDelete st.pullRequestCache token.id }
  else
    match mapGet? st.pullRequestCache token.id with
    | some cached => (some cached, st)
    | none => getPullRequestCore token env st

/-- C3: Identifier round-trip — for every `(numericId, fullReference)`
pair whose full reference contains exactly one `!` (i.e. is
`projectFullPath ++ "!" ++ internalId` with neither part containing
`!`), decoding the encoded token yields back the original project path
and internal id, and the numeric id is carried through unchanged. -/
theorem identifier_round_trip (numericId : Str) (p i : Str)
    (hp : '!' ∉ p) (hi : '!' ∉ i) :
    parseId (encodeId numericId (p ++ '!' :: i))
        = { projectFullPath := some p, iid := some i }
      ∧ (encodeId numericId (p ++ '!' :: i)).id = numericId := by
  refine ⟨?_, rfl⟩
  simp [parseId, encodeId, splitOnChar_append hp hi]

/-- Witness for `identifier_round_trip` at a concrete reference. -/
theorem identifier_round_trip_witness :
    '!' ∉ "group/project".data ∧ '!' ∉ "17".data
      ∧ (parseId (encodeId "47".data ("group/project".data ++ '!' :: "17".data))
            = { projectFullPath := some "group/project".data, iid := some "17".data }
          ∧ (encodeId "47".data ("group/project".data ++ '!' :: "17".data)).id = "47".data) :=
  ⟨by decide, by decide,
   identifier_round_trip "47".data "group/project".data "17".data (by decide) (by decide)⟩

/-- C5 (counterexample): the splitting step computes `replies` by
filtering on note *id*, so a discussion whose second note shares the
head's id loses that note — `replies` is `[]`, not the remaining
elements, refuting the claim as stated for all note lists. -/
theorem discussion_note_splitting_cex :
    splitNotes
        [{ id := "5".data, body := "first".data, createdAt := "t1".data },
         { id := "5".data, body := "second".data, createdAt := "t2".data }]
      ≠ [{ id := "5".data, body := "first".data, createdAt := "t1".data,
           replies := [{ id := "5".data, body := "second".data, createdAt := "t2".data }] }] := by
  decide

/-- C5 (amended): for a discussion whose note list is `n0 :: rest` where
no note of `rest` shares `n0`'s id, the assembled discussion carries
exactly one head note (only `n0`) whose `replies` are exactly `rest` in
order. -/
theorem discussion_note_splitting (n0 : GLNote) (rest : List GLNote)
    (h : ∀ x ∈ rest, x.id ≠ n0.id) :
    splitNotes (n0 :: rest)
      = [{ id := n0.id, body := n0.body, createdAt := n0.createdAt, replies := rest }] := by
  have hfilter : (n0 :: rest).filter (fun x => !decide (x.id = n0.id)) = rest := by
    rw [List.filter_cons]
    simp only [decide_eq_true_eq, decide_not]
    rw [if_neg (by simp)]
    exact List.filter_eq_self.mpr fun x hx => by simp [h x hx]
  simp [splitNotes, hfilter]

/-- Witness for `discussion_note_splitting` on a three-note discussion. -/
theorem discussion_note_splitting_witness :
    (∀ x ∈ [({ id := "n1".data, body := "b1".data, createdAt := "t1".data } : GLNote),
            { id := "n2".data, body := "b2".data, createdAt := "t2".data }],
        x.id ≠ ("n0".data : Str))
      ∧ splitNotes
          [{ id := "n0".data, body := "b0".data, createdAt := "t0".data },
           { id := "n1".data, body := "b1".data, createdAt := "t1".data },
           { id := "n2".data, body := "b2".data, createdAt := "t2".data }]
        = [{ id := "n0".data, body := "b0".data, createdAt := "t0".data,
             replies := [{ id := "n1".data, body := "b1".data, createdAt := "t1".data },
                         { id := "n2".data, body := "b2".data, createdAt := "t2".data }] }] :=
  ⟨by decide,
   discussion_note_splitting
     { id := "n0".data, body := "b0".data, createdAt := "t0".data }
     [{ id := "n1".data, body := "b1".data, createdAt := "t1".data },
      { id := "n2".data, body := "b2".data, createdAt := "t2".data }]
     (by decide)⟩

/-- The FORBIDDEN-response exception of the classification property. -/
def forbiddenException : ProviderException :=
  { message := some "Request failed".data,
    response := some { message := none, errors := some [{ type := "FORBIDDEN".data }] } }

/-- The unclassifiable exception of the classification property. -/
def unexpectedException : ProviderException :=
  { message := some "totally unexpected".data, response := none }

/-- C7: Error classification — any exception whose message matches
`ECONNRESET` classifies as network-transient; an exception whose
response body holds a `FORBIDDEN` error entry classifies as
credential-invalid; and the message `"totally unexpected"` is
unclassified and re-thrown by `query` unchanged, not wrapped. -/
theorem error_classification :
    (∀ (m : Str) (r : Option ExceptionResponse),
        containsPattern "ECONNRESET".data m = true →
        isSuppressedException { message := some m, response := r }
          = some ReportSuppressedMessages.networkError)
  ∧ isSuppressedException forbiddenException = some ReportSuppressedMessages.accessTokenInvalid
  ∧ isSuppressedException unexpectedException = none
  ∧ queryFailureOf unexpectedException = QueryFailure.original unexpectedException := by
  refine ⟨?_, by decide, by decide, by decide⟩
  intro m r hm
  have hm0 : m ≠ [] := by
    intro h0
    rw [h0] at hm
    exact absurd hm (by decide)
  have hne : m.isEmpty = false := by
    cases m with
    | nil => exact absurd rfl hm0
    | cons _ _ => rfl
  have hany : networkErrors.any (fun e => containsPattern e m) = true :=
    List.any_eq_true.mpr ⟨"ECONNRESET".data, by simp [networkErrors], hm⟩
  simp [isSuppressedException, truthyStr, hne, hany]

/-- Witness for `error_classification` at the message `"ECONNRESET"`. -/
theorem error_classification_witness :
    containsPattern "ECONNRESET".data "ECONNRESET".data = true
      ∧ isSuppressedException { message := some "ECONNRESET".data, response := none }
          = some ReportSuppressedMessages.networkError :=
  ⟨by decide, error_classification.1 "ECONNRESET".data none (by decide)⟩

/-- An adapter state with empty caches and no staged reviews. -/
def emptyState : GitLabState :=
  { pullRequestCache := [], pendingReviewStore := [] }

/-- A token used by the concrete scenarios. -/
def sampleId : MergeRequestFullId :=
  { id := "gid-47".data, full := "group/project!47".data }

/-- C8: Validation rejection — `submitReview` with the out-of-enumeration
`eventType` `"BOGUS"` rejects with `Invalid eventType` before issuing any
network call (`calls = []`), leaving the pending-review store (the whole
adapter state) unchanged and emitting no notice. -/
theorem validation_rejection (request : SubmitReviewRequest) (postOutcome : Nat → Bool)
    (st : GitLabState) (h : request.eventType = "BOGUS".data) :
    submitReview request postOutcome st
      = { result := .error "Invalid eventType".data, state := st, calls := [],
          notices := [] } := by
  have hne : (("BOGUS".data : Str)).isEmpty = false := by decide
  have h1 : (("BOGUS".data : Str)) ≠ "COMMENT".data := by decide
  have h2 : (("BOGUS".data : Str)) ≠ "APPROVE".data := by decide
  have h3 : (("BOGUS".data : Str)) ≠ "REQUEST_CHANGES".data := by decide
  simp [submitReview, h, hne, h1, h2, h3]

/-- Witness for `validation_rejection`. -/
theorem validation_rejection_witness :
    ({ pullRequestId := sampleId, text := "done".data,
       eventType := "BOGUS".data } : SubmitReviewRequest).eventType = "BOGUS".data
      ∧ submitReview
            { pullRequestId := sampleId, text := "done".data, eventType := "BOGUS".data }
            (fun _ => true) emptyState
          = { result := .error "Invalid eventType".data, state := emptyState, calls := [],
              notices := [] } :=
  ⟨rfl, validation_rejection _ (fun _ => true) emptyState rfl⟩

/-- C10: Implicit eventType default — `submitReview` with an absent
(empty) `eventType` does not reject: it behaves exactly as if
`eventType` were `"COMMENT"`, succeeds, clears the staged list, and
posts the summary comment when a body is supplied. -/
theorem event_type_default (request : SubmitReviewRequest) (postOutcome : Nat → Bool)
    (st : GitLabState) (h : request.eventType = []) :
    submitReview request postOutcome st
        = submitReview { request with eventType := "COMMENT".data } postOutcome st
      ∧ (submitReview request postOutcome st).result = Except.ok true
      ∧ (∀ entries, mapGet? st.pendingReviewStore request.pullRequestId.id = some entries →
            entries ≠ [] →
            mapGet? (submitReview request postOutcome st).state.pendingReviewStore
                request.pullRequestId.id = some [])
      ∧ (request.text ≠ [] →
            NetworkCall.postTopLevelComment ∈ (submitReview request postOutcome st).calls) := by
  have hc : ¬ ((("COMMENT".data : Str)) ≠ "COMMENT".data
      ∧ (("COMMENT".data : Str)) ≠ "APPROVE".data
      ∧ (("COMMENT".data : Str)) ≠ "REQUEST_CHANGES".data) := fun hx => hx.1 rfl
  have hred : submitReview request postOutcome st
      = submitReview { request with eventType := "COMMENT".data } postOutcome st := by
    simp [submitReview, h]
  refine ⟨hred, ?_, ?_, ?_⟩
  · rw [hred]
    simp only [submitReview, if_neg hc]
    cases hs : mapGet? st.pendingReviewStore request.pullRequestId.id with
    | none => simp [hs]
    | some entries =>
      by_cases hlen : entries.length = 0
      · simp [hs, hlen]
      · simp [hs, hlen]
  · intro entries hent hne
    rw [hred]
    simp only [submitReview, if_neg hc]
    simp [hent, hne, mapGet?_set_self]
  · intro htext
    have htne : request.text.isEmpty = false := by
      cases hx : request.text with
      | nil => exact absurd hx htext
      | cons _ _ => rfl
    rw [hred]
    simp only [submitReview, if_neg hc]
    cases hs : mapGet? st.pendingReviewStore request.pullRequestId.id with
    | none => simp [hs, htne]
    | some entries =>
      by_cases hlen : entries.length = 0
      · simp [hs, hlen, htne]
      · simp [hs, hlen, htne]

/-- First staged inline comment of the concrete scenarios. -/
def sampleReview1 : ReviewCommentRequest :=
  { pullRequestId := sampleId, text := "first: check bounds".data,
    filePath := "src/a.ts".data, startLine := some 3, position := none,
    leftSha := none, sha := none }

/-- Second staged inline comment of the concrete scenarios. -/
def sampleReview2 : ReviewCommentRequest :=
  { pullRequestId := sampleId, text := "second: rename this".data,
    filePath := "src/b.ts".data, startLine := some 9, position := none,
    leftSha := none, sha := none }

/-- A state with one staged review comment for `sampleId`. -/
def stagedState : GitLabState :=
  { pullRequestCache := [],
    pendingReviewStore := [(sampleId.id, [PendingEntry.raw sampleReview1])] }

/-- A `submitReview` request with an absent (empty) `eventType`. -/
def defaultSubmit : SubmitReviewRequest :=
  { pullRequestId := sampleId, text := "looks good".data, eventType := [] }

/-- Witness for `event_type_default`: a staged comment and a summary
body, `eventType` absent. -/
theorem event_type_default_witness :
    defaultSubmit.eventType = []
      ∧ (submitReview defaultSubmit (fun _ => true) stagedState).result = Except.ok true
      ∧ mapGet? (submitReview defaultSubmit (fun _ => true) stagedState).state.pendingReviewStore
            sampleId.id = some []
      ∧ NetworkCall.postTopLevelComment
          ∈ (submitReview defaultSubmit (fun _ => true) stagedState).calls :=
  ⟨rfl,
   (event_type_default defaultSubmit (fun _ => true) stagedState rfl).2.1,
   (event_type_default defaultSubmit (fun _ => true) stagedState rfl).2.2.1
     [PendingEntry.raw sampleReview1] (by decide) (by decide),
   (event_type_default defaultSubmit (fun _ => true) stagedState rfl).2.2.2 (by decide)⟩

/-- A single-discussion detail payload for the concrete scenarios. -/
def sampleDetail : RawDetail :=
  { mergeRequestId := "gid-47".data,
    discussions :=
      [{ id := "d1".data, createdAt := "2021-01-01T00:00:00Z".data,
         notes := [{ id := "n1".data, body := "hello".data,
                     createdAt := "2021-01-01T00:00:00Z".data }] }] }

/-- A fully successful provider environment for the concrete scenarios. -/
def sampleEnv : FetchEnv :=
  { now := "2021-05-05T00:00:00Z".data, detail := .ok sampleDetail, awards := .ok [],
    projectEvents := .ok [], labelEvents := .ok [], milestoneEvents := .ok [] }

/-- A stale detail response cached under `sampleId`. -/
def staleResponse : PRResponse :=
  { mergeRequestId := "gid-47".data, pendingReviewCount := none, timeline := [] }

/-- A state whose detail cache holds `staleResponse` for `sampleId`. -/
def cachedState : GitLabState :=
  { pullRequestCache := [(sampleId.id, staleResponse)], pendingReviewStore := [] }

/-- C2 (counterexample): `lockPullRequest` does not delete the cached
detail entry, so after locking `sampleId` a non-force fetch returns the
stale cached object — which differs from what the network would produce —
refuting the claim that every mutating operation invalidates the cache. -/
theorem cache_invalidation_cex :
    (getPullRequest sampleId false sampleEnv ((lockPullRequest sampleId true cachedState).2)).1
        = some staleResponse
      ∧ some staleResponse ≠ (getPullRequestCore sampleId sampleEnv cachedState).1 := by
  decide

/-- The flush loop of `submitReview` only ever deletes the cache entry
for its id, so a deleted entry stays deleted through the rest of the
flush. -/
theorem flushPendingComments_cache_none (id : Str) (postOutcome : Nat → Bool) :
    ∀ (entries : List PendingEntry) (i : Nat) (st : GitLabState),
      mapGet? st.pullRequestCache id = none →
      mapGet? (flushPendingComments id postOutcome i entries st).1.pullRequestCache id
        = none := by
  intro entries
  induction entries with
  | nil =>
    intro i st h
    simpa [flushPendingComments] using h
  | cons e rest ih =>
    intro i st h
    simp only [flushPendingComments]
    by_cases hp : postOutcome i
    · exact ih (i + 1) _ (by simp [hp, mapGet?_delete_self])
    · exact ih (i + 1) _ (by simpa [hp] using h)

/-- When the first staged comment posts successfully, the flush loop's
`createCommitComment` deletes the detail cache entry, and it stays
deleted. -/
theorem flushPendingComments_cache_deleted (id : Str) (postOutcome : Nat → Bool)
    (e : PendingEntry) (rest : List PendingEntry) (i : Nat) (st : GitLabState)
    (hp : postOutcome i = true) :
    mapGet? (flushPendingComments id postOutcome i (e :: rest) st).1.pullRequestCache id
      = none := by
  simp only [flushPendingComments]
  exact flushPendingComments_cache_none id postOutcome rest (i + 1) _
    (by simp [hp, mapGet?_delete_self])

/-- A state whose detail cache holds `staleResponse` for `sampleId` and
whose review store has one staged comment for it. -/
def cachedStagedState : GitLabState :=
  { pullRequestCache := [(sampleId.id, staleResponse)],
    pendingReviewStore := [(sampleId.id, [PendingEntry.raw sampleReview1])] }

/-- The review submission used by the cache-invalidation witness. -/
def submitC2 : SubmitReviewRequest :=
  { pullRequestId := sampleId, text := [], eventType := "COMMENT".data }

/-- C2 (amended): the comment mutations (staging an inline review
comment, posting a commit comment, deleting a comment) delete the
detail-cache entry for the affected id before returning and emit a
change notice naming it, and a review submit with staged comments
deletes it as soon as one of them posts successfully (via
`createCommitComment`); but lock/unlock, merge, milestone, WIP, label
and approve toggle leave the adapter state untouched, so a subsequent
non-force detail fetch for a cached id returns the stale cached object
instead of re-hitting the network. -/
theorem cache_invalidation (tok : MergeRequestFullId) (flag approve : Bool)
    (res : Except Str MergeRestResult) (mres : Except Str (Option Str))
    (wres : Except Str WipMutationResult) (lres ares : Except Str (List Str))
    (r : ReviewCommentRequest) (noteId : Str)
    (sreq : SubmitReviewRequest) (postOutcome : Nat → Bool)
    (st : GitLabState) (env : FetchEnv) (resp : PRResponse)
    (hcache : mapGet? st.pullRequestCache tok.id = some resp)
    (hs2 : sreq.eventType = "COMMENT".data) :
    (lockPullRequest tok flag st).2 = st
  ∧ (mergePullRequest tok res st).2 = st
  ∧ (toggleMilestoneOnPullRequest tok mres st).2 = st
  ∧ (setWorkInProgressOnPullRequest tok wres st).2 = st
  ∧ (setLabelOnPullRequest tok lres st).2 = st
  ∧ (togglePullRequestApproval tok approve ares st).2 = st
  ∧ mapGet? (createPullRequestReviewComment r st).2.1.pullRequestCache r.pullRequestId.id = none
  ∧ (createPullRequestReviewComment r st).2.2
      = [{ pullRequestId := r.pullRequestId.id, filePath := some r.filePath,
           commentId := none }]
  ∧ mapGet? (createCommitComment tok st).1.pullRequestCache tok.id = none
  ∧ mapGet? (deletePullRequestComment noteId tok st).2.1.pullRequestCache tok.id = none
  ∧ (∀ entries, mapGet? st.pendingReviewStore sreq.pullRequestId.id = some entries →
        entries ≠ [] → postOutcome 0 = true →
        mapGet? (submitReview sreq postOutcome st).state.pullRequestCache
          sreq.pullRequestId.id = none)
  ∧ getPullRequest tok false env st = (some resp, st) := by
  refine ⟨rfl, ?_, ?_, ?_, ?_, ?_, ?_, rfl, ?_, ?_, ?_, ?_⟩
  · cases res <;> rfl
  · cases mres <;> rfl
  · cases wres <;> rfl
  · cases lres <;> rfl
  · cases approve <;> cases ares <;> rfl
  · simp [createPullRequestReviewComment, mapGet?_delete_self]
  · simp [createCommitComment, mapGet?_delete_self]
  · simp [deletePullRequestComment, mapGet?_delete_self]
  · intro entries hent hne hp0
    have hc : ¬ ((("COMMENT".data : Str)) ≠ "COMMENT".data
        ∧ (("COMMENT".data : Str)) ≠ "APPROVE".data
        ∧ (("COMMENT".data : Str)) ≠ "REQUEST_CHANGES".data) := fun hx => hx.1 rfl
    have hie : (("COMMENT".data : Str)).isEmpty = false := by decide
    cases entries with
    | nil => exact absurd rfl hne
    | cons e rest =>
      simp [submitReview, hs2, hie, hc, hent,
        flushPendingComments_cache_deleted sreq.pullRequestId.id postOutcome e rest 0 st hp0]
  · simp [getPullRequest, hcache]

/-- Witness for `cache_invalidation` at a concrete state holding both a
cached detail response and a staged review comment. -/
theorem cache_invalidation_witness :
    mapGet? cachedStagedState.pullRequestCache sampleId.id = some staleResponse
  ∧ (lockPullRequest sampleId true cachedStagedState).2 = cachedStagedState
  ∧ (mergePullRequest sampleId (.error "boom".data) cachedStagedState).2 = cachedStagedState
  ∧ (toggleMilestoneOnPullRequest sampleId (.ok (some "m1".data)) cachedStagedState).2
      = cachedStagedState
  ∧ (setWorkInProgressOnPullRequest sampleId
      (.ok { workInProgress := true, title := "Draft: x".data }) cachedStagedState).2
      = cachedStagedState
  ∧ (setLabelOnPullRequest sampleId (.ok ["bug".data]) cachedStagedState).2
      = cachedStagedState
  ∧ (togglePullRequestApproval sampleId true (.ok ["alice".data]) cachedStagedState).2
      = cachedStagedState
  ∧ mapGet? (createPullRequestReviewComment sampleReview1 cachedStagedState).2.1.pullRequestCache
      sampleReview1.pullRequestId.id = none
  ∧ mapGet? (createCommitComment sampleId cachedStagedState).1.pullRequestCache
      sampleId.id = none
  ∧ mapGet? (deletePullRequestComment "n1".data sampleId cachedStagedState).2.1.pullRequestCache
      sampleId.id = none
  ∧ mapGet? (submitReview submitC2 (fun _ => true) cachedStagedState).state.pullRequestCache
      submitC2.pullRequestId.id = none
  ∧ getPullRequest sampleId false sampleEnv cachedStagedState
      = (some staleResponse, cachedStagedState) := by
  have h := cache_invalidation sampleId true true (.error "boom".data) (.ok (some "m1".data))
    (.ok { workInProgress := true, title := "Draft: x".data }) (.ok ["bug".data])
    (.ok ["alice".data]) sampleReview1 "n1".data submitC2 (fun _ => true)
    cachedStagedState sampleEnv staleResponse (by decide) rfl
  exact ⟨by decide, h.1, h.2.1, h.2.2.1, h.2.2.2.1, h.2.2.2.2.1, h.2.2.2.2.2.1,
    h.2.2.2.2.2.2.1, h.2.2.2.2.2.2.2.2.1, h.2.2.2.2.2.2.2.2.2.1,
    h.2.2.2.2.2.2.2.2.2.2.1 [PendingEntry.raw sampleReview1] (by decide) (by decide) rfl,
    h.2.2.2.2.2.2.2.2.2.2.2⟩

/-- `sortNodes` sorts ascending by `createdAt` (lexicographic `≤`). -/
theorem sortNodes_sorted (l : List TimelineNode) :
    List.Sorted (fun a b : TimelineNode => a.createdAt ≤ b.createdAt) (sortNodes l) := by
  haveI : IsTotal TimelineNode (fun a b => a.createdAt ≤ b.createdAt) :=
    ⟨fun a b => le_total _ _⟩
  haveI : IsTrans TimelineNode (fun a b => a.createdAt ≤ b.createdAt) :=
    ⟨fun _ _ _ hab hbc => le_trans hab hbc⟩
  exact List.sorted_insertionSort _ l

/-- With pairwise-distinct timestamps the sort is strictly increasing. -/
theorem sortNodes_sorted_lt (l : List TimelineNode)
    (h : (l.map TimelineNode.createdAt).Nodup) :
    List.Sorted (fun a b : TimelineNode => a.createdAt < b.createdAt) (sortNodes l) := by
  have hs : List.Pairwise (fun a b : TimelineNode => a.createdAt ≤ b.createdAt) (sortNodes l) :=
    sortNodes_sorted l
  have hperm : List.Perm (sortNodes l) l := List.perm_insertionSort _ l
  have hnd : ((sortNodes l).map TimelineNode.createdAt).Nodup :=
    ((hperm.map TimelineNode.createdAt).nodup_iff).mpr h
  have hne : List.Pairwise (fun a b : TimelineNode => a.createdAt ≠ b.createdAt) (sortNodes l) :=
    List.pairwise_map.mp hnd
  exact (hs.and hne).imp fun hab => lt_of_le_of_ne hab.1 hab.2

/-- Two permuted inputs with pairwise-distinct timestamps sort to the
same list: sorting is supply-order independent. -/
theorem sortNodes_eq_of_perm {l₁ l₂ : List TimelineNode} (h : List.Perm l₁ l₂)
    (hnd : (l₂.map TimelineNode.createdAt).Nodup) :
    sortNodes l₁ = sortNodes l₂ := by
  have hnd₁ : (l₁.map TimelineNode.createdAt).Nodup := ((h.map _).nodup_iff).mpr hnd
  have hp : List.Perm (sortNodes l₁) (sortNodes l₂) :=
    (List.perm_insertionSort _ l₁).trans (h.trans (List.perm_insertionSort _ l₂).symm)
  haveI : IsAntisymm TimelineNode (fun a b : TimelineNode => a.createdAt < b.createdAt) :=
    ⟨fun _ _ h1 h2 => absurd h1 (lt_asymm h2)⟩
  exact List.eq_of_perm_of_sorted hp (sortNodes_sorted_lt l₁ hnd₁) (sortNodes_sorted_lt l₂ hnd)

/-- C6: Chronological merge — for four streams (discussions, project
activity, label events, milestone events) with pairwise-distinct
creation timestamps, the assembled timeline is the concatenation sorted
ascending by lexical string comparison of `createdAt`, it is a
permutation of the four streams, and it is independent of the order in
which the streams are supplied (any permuted concatenation sorts to the
same list). -/
theorem chronological_merge (ds pes les mes : List TimelineNode)
    (hnd : ((ds ++ pes ++ les ++ mes).map TimelineNode.createdAt).Nodup) :
    List.Sorted (fun a b : TimelineNode => a.createdAt ≤ b.createdAt)
        (sortNodes (ds ++ pes ++ les ++ mes))
  ∧ List.Perm (sortNodes (ds ++ pes ++ les ++ mes)) (ds ++ pes ++ les ++ mes)
  ∧ ∀ other : List TimelineNode, List.Perm other (ds ++ pes ++ les ++ mes) →
      sortNodes other = sortNodes (ds ++ pes ++ les ++ mes) :=
  ⟨sortNodes_sorted _, List.perm_insertionSort _ _,
   fun _ hother => sortNodes_eq_of_perm hother hnd⟩

/-- Timeline item with timestamp `t1` (the discussion stream). -/
def nodeT1 : TimelineNode :=
  .discussion { id := "d1".data, createdAt := "2020-01-01T00:00:00Z".data, notes := [] }

/-- Timeline item with timestamp `t2` (the project-activity stream);
`t3 < t2`. -/
def nodeT2 : TimelineNode :=
  .event { type := "merge-request".data, action := "opened".data,
           createdAt := "2020-01-03T00:00:00Z".data }

/-- Timeline item with timestamp `t3` (the label stream); `t1 < t3`. -/
def nodeT3 : TimelineNode :=
  .event { type := "label".data, action := "add".data,
           createdAt := "2020-01-02T00:00:00Z".data }

/-- Timeline item with timestamp `t4` (the milestone stream); `t2 < t4`. -/
def nodeT4 : TimelineNode :=
  .event { type := "milestone".data, action := "add".data,
           createdAt := "2020-01-04T00:00:00Z".data }

/-- Witness for `chronological_merge`: timestamps `t1 < t3 < t2 < t4`
merge to the order `t1, t3, t2, t4`, and supplying the streams in
another order yields the same merged timeline. -/
theorem chronological_merge_witness :
    (([nodeT1] ++ [nodeT2] ++ [nodeT3] ++ [nodeT4]).map TimelineNode.createdAt).Nodup
  ∧ sortNodes ([nodeT1] ++ [nodeT2] ++ [nodeT3] ++ [nodeT4]) = [nodeT1, nodeT3, nodeT2, nodeT4]
  ∧ sortNodes ([nodeT3] ++ [nodeT4] ++ [nodeT1] ++ [nodeT2])
      = sortNodes ([nodeT1] ++ [nodeT2] ++ [nodeT3] ++ [nodeT4]) :=
  ⟨by decide, by decide,
   (chronological_merge [nodeT1] [nodeT2] [nodeT3] [nodeT4] (by decide)).2.2
     ([nodeT3] ++ [nodeT4] ++ [nodeT1] ++ [nodeT2]) (by decide)⟩

/-- One step of the pagination loop when the page advertises a
non-empty (truthy) next URL. -/
theorem fetchAllPages_cons {α : Type} (transport : Str → PageResponse α) (baseUrl : Str)
    (fuel : Nat) (url nextUrl : Str)
    (h : nextPage baseUrl (transport url).linkHeader = .ok (some nextUrl))
    (hne : nextUrl ≠ []) :
    fetchAllPages transport baseUrl (fuel + 1) url
      = ((transport url).items ++ (fetchAllPages transport baseUrl fuel nextUrl).1,
         (fetchAllPages transport baseUrl fuel nextUrl).2 + 1) := by
  have hempty : nextUrl.isEmpty = false := by
    cases nextUrl with
    | nil => exact absurd rfl hne
    | cons _ _ => rfl
  simp [fetchAllPages, h, hempty]

/-- The last step of the pagination loop: no next link ends it after the
current page. -/
theorem fetchAllPages_last {α : Type} (transport : Str → PageResponse α) (baseUrl : Str)
    (fuel : Nat) (url : Str)
    (h : nextPage baseUrl (transport url).linkHeader = .ok none) :
    fetchAllPages transport baseUrl (fuel + 1) url = ((transport url).items, 1) := by
  simp [fetchAllPages, h]

/-- The pagination loop over a chain of `n + 1` pages, each (except the
last) advertising the next URL: it returns the concatenation of all
pages' items in page order and calls the transport exactly `n + 1`
times. -/
theorem fetchAllPages_chain {α : Type} (transport : Str → PageResponse α) (baseUrl : Str) :
    ∀ (n : Nat) (urls : Nat → Str),
      (∀ i, i + 1 < n + 1 →
          nextPage baseUrl (transport (urls i)).linkHeader = .ok (some (urls (i + 1)))) →
      (∀ i, i + 1 < n + 1 → urls (i + 1) ≠ []) →
      nextPage baseUrl (transport (urls n)).linkHeader = .ok none →
      fetchAllPages transport baseUrl (n + 1) (urls 0)
        = (((List.range (n + 1)).map fun i => (transport (urls i)).items).flatten, n + 1) := by
  intro n
  induction n with
  | zero =>
    intro urls _ _ hlast
    rw [fetchAllPages_last transport baseUrl 0 (urls 0) hlast]
    simp [List.range_succ]
  | succ m ih =>
    intro urls hchain hne hlast
    have h0 : nextPage baseUrl (transport (urls 0)).linkHeader = .ok (some (urls 1)) :=
      hchain 0 (by omega)
    have ih2 : fetchAllPages transport baseUrl (m + 1) (urls 1)
        = (((List.range (m + 1)).map fun i => (transport (urls (i + 1))).items).flatten,
           m + 1) :=
      ih (fun i => urls (i + 1)) (fun i hi => hchain (i + 1) (by omega))
        (fun i hi => hne (i + 1) (by omega)) hlast
    rw [fetchAllPages_cons transport baseUrl (m + 1) (urls 0) (urls 1) h0 (hne 0 (by omega)),
        ih2, List.range_succ_eq_map (m + 1)]
    simp [List.map_map, Function.comp_def, Nat.succ_eq_add_one]

/-- Over well-formed segments (each with a `;`-separated relation part),
the `nextPage` scan returns `undefined` exactly when no segment's
trimmed relation is `rel="next"`. -/
theorem nextPageLoop_none_iff (baseUrl : Str) (segs : List Str)
    (hwf : ∀ seg ∈ segs, (splitOnChar ';' seg)[1]? ≠ none) :
    nextPageLoop baseUrl segs = .ok none
      ↔ ∀ seg ∈ segs, ∀ rawRel, (splitOnChar ';' seg)[1]? = some rawRel →
          trimStr rawRel ≠ relNextLit := by
  induction segs with
  | nil => simp [nextPageLoop]
  | cons link links ih =>
    have hwf' : ∀ seg ∈ links, (splitOnChar ';' seg)[1]? ≠ none := fun s hs =>
      hwf s (List.mem_cons_of_mem _ hs)
    cases hp : (splitOnChar ';' link)[1]? with
    | none => exact absurd hp (hwf link (List.mem_cons_self _ _))
    | some rawRel =>
      by_cases hrel : trimStr rawRel = relNextLit
      · constructor
        · intro h
          simp [nextPageLoop, hp, hrel] at h
        · intro hall
          exact absurd hrel (hall link (List.mem_cons_self _ _) rawRel hp)
      · rw [show nextPageLoop baseUrl (link :: links) = nextPageLoop baseUrl links from by
          simp [nextPageLoop, hp, hrel]]
        rw [ih hwf']
        constructor
        · intro hall seg hseg rr hrr
          rcases List.mem_cons.mp hseg with rfl | hseg'
          · rw [hp] at hrr
            cases hrr
            exact hrel
          · exact hall seg hseg' rr hrr
        · intro hall seg hseg rr hrr
          exact hall seg (List.mem_cons_of_mem _ hseg) rr hrr

/-- C4: Pagination termination and completeness — (1) for any chain of
`N ≥ 1` pages in which every page but the last advertises the next page
via its Link header as a non-empty (truthy, per `while (url)`) URL and
the last yields no next link, the pagination loop returns exactly the
concatenation of all `N` pages' items in page order and calls the
transport exactly `N` times; (2) over a non-blank header whose
comma-segments all carry a relation part, `nextPage` returns
`undefined` exactly when no segment's relation is `rel="next"`;
(3) a blank header always yields `undefined`. -/
theorem pagination_termination :
    (∀ (α : Type) (transport : Str → PageResponse α) (baseUrl : Str) (urls : Nat → Str)
        (N : Nat), 1 ≤ N →
        (∀ i, i + 1 < N →
            nextPage baseUrl (transport (urls i)).linkHeader = .ok (some (urls (i + 1)))) →
        (∀ i, i + 1 < N → urls (i + 1) ≠ []) →
        nextPage baseUrl (transport (urls (N - 1))).linkHeader = .ok none →
        fetchAllPages transport baseUrl N (urls 0)
          = (((List.range N).map fun i => (transport (urls i)).items).flatten, N))
  ∧ (∀ (baseUrl linkHeader : Str), trimStr linkHeader ≠ [] →
        (∀ seg ∈ splitOnChar ',' linkHeader, (splitOnChar ';' seg)[1]? ≠ none) →
        (nextPage baseUrl linkHeader = .ok none
          ↔ ∀ seg ∈ splitOnChar ',' linkHeader,
              ∀ rawRel, (splitOnChar ';' seg)[1]? = some rawRel →
                trimStr rawRel ≠ relNextLit))
  ∧ (∀ (baseUrl linkHeader : Str), trimStr linkHeader = [] →
        nextPage baseUrl linkHeader = .ok none) := by
  refine ⟨?_, ?_, ?_⟩
  · intro α transport baseUrl urls N hN hchain hne hlast
    obtain ⟨n, rfl⟩ : ∃ n, N = n + 1 := ⟨N - 1, (Nat.succ_pred_eq_of_pos hN).symm⟩
    exact fetchAllPages_chain transport baseUrl n urls hchain hne (by simpa using hlast)
  · intro baseUrl linkHeader htrim hwf
    have hlen : ¬ (trimStr linkHeader).length = 0 := by
      simpa [List.length_eq_zero] using htrim
    rw [show nextPage baseUrl linkHeader = nextPageLoop baseUrl (splitOnChar ',' linkHeader)
      from by simp [nextPage, hlen]]
    exact nextPageLoop_none_iff baseUrl _ hwf
  · intro baseUrl linkHeader htrim
    simp [nextPage, htrim]

/-- The base URL of the pagination witness. -/
def wBase : Str := "http://g/api".data

/-- The three page URLs of the pagination witness. -/
def wUrls : Nat → Str := fun i =>
  if i = 0 then "/mrs?state=opened".data
  else if i = 1 then "/mrs?state=opened&page=2".data
  else "/mrs?state=opened&page=3".data

/-- The three-page transport of the pagination witness: pages 1 and 2
advertise their successor via `rel="next"`; page 3 has no Link header. -/
def wTransport : Str → PageResponse Nat := fun u =>
  if u = "/mrs?state=opened".data then
    { items := [1, 2],
      linkHeader := "<http://g/api/mrs?state=opened&page=2>; rel=\"next\"".data }
  else if u = "/mrs?state=opened&page=2".data then
    { items := [3],
      linkHeader := ("<http://g/api/mrs?state=opened&page=3>; rel=\"next\", "
        ++ "<http://g/api/mrs?state=opened>; rel=\"first\"").data }
  else { items := [4, 5], linkHeader := [] }

/-- Witness for `pagination_termination`: a concrete three-page chain
returns the items of all pages in order with exactly three calls. -/
theorem pagination_termination_witness :
    fetchAllPages wTransport wBase 3 (wUrls 0) = ([1, 2, 3, 4, 5], 3) := by
  have hchain : ∀ i, i + 1 < 3 →
      nextPage wBase (wTransport (wUrls i)).linkHeader = .ok (some (wUrls (i + 1))) := by
    intro i hi
    rcases i with _ | _ | i
    · decide
    · decide
    · exact absurd hi (by omega)
  have hne : ∀ i, i + 1 < 3 → wUrls (i + 1) ≠ [] := by
    intro i hi
    rcases i with _ | _ | i
    · decide
    · decide
    · exact absurd hi (by omega)
  have hlast : nextPage wBase (wTransport (wUrls (3 - 1))).linkHeader = .ok none := by decide
  have h := pagination_termination.1 Nat wTransport wBase wUrls 3 (by decide) hchain hne hlast
  rw [h]
  decide

/-- An environment whose label-event fetch fails (the other calls
succeed). -/
def failEnv : FetchEnv :=
  { now := "2021-05-05T00:00:00Z".data, detail := .ok sampleDetail, awards := .ok [],
    projectEvents := .ok [], labelEvents := .error "boom".data, milestoneEvents := .ok [] }

/-- C9 (counterexample): with the label-event fetch failing, the detail
fetch still returns a (partial) response object rather than surfacing
the error, and the partial object remains cached for the id — refuting
the all-or-nothing claim. -/
theorem all_or_nothing_assembly_cex :
    (getPullRequest sampleId false failEnv emptyState).1 ≠ none
      ∧ mapGet? (getPullRequest sampleId false failEnv emptyState).2.pullRequestCache
          sampleId.id ≠ none := by
  decide

/-- C9 (amended): `getPullRequest` caches the response before the three
auxiliary event fetches, and its outer `catch` swallows their errors: if
any auxiliary fetch fails, the fetch returns the partially assembled
response (discussions plus pending node, no events, unsorted) instead of
an error, and that partial object remains cached for the id. -/
theorem all_or_nothing_assembly (tok : MergeRequestFullId) (env : FetchEnv)
    (st : GitLabState) (raw : RawDetail) (aw : List Str)
    (hmiss : mapGet? st.pullRequestCache tok.id = none)
    (hd : env.detail = .ok raw) (ha : env.awards = .ok aw)
    (hfail : ¬ ∃ pes les mes, env.projectEvents = Except.ok pes
        ∧ env.labelEvents = Except.ok les ∧ env.milestoneEvents = Except.ok mes) :
    getPullRequest tok false env st
        = (some (assemblyWithPending env.now raw st),
           { st with pullRequestCache :=
               mapSet st.pullRequestCache tok.id (assemblyWithPending env.now raw st) })
      ∧ mapGet? (getPullRequest tok false env st).2.pullRequestCache tok.id
          = some (assemblyWithPending env.now raw st) := by
  have hcall : getPullRequest tok false env st = getPullRequestCore tok env st := by
    simp [getPullRequest, hmiss]
  have hcore : getPullRequestCore tok env st
      = (some (assemblyWithPending env.now raw st),
         { st with pullRequestCache :=
             mapSet st.pullRequestCache tok.id (assemblyWithPending env.now raw st) }) := by
    cases hpe : env.projectEvents with
    | error e => simp [getPullRequestCore, hd, ha, hpe]
    | ok pes =>
      cases hle : env.labelEvents with
      | error e => simp [getPullRequestCore, hd, ha, hpe, hle]
      | ok les =>
        cases hme : env.milestoneEvents with
        | error e => simp [getPullRequestCore, hd, ha, hpe, hle, hme]
        | ok mes => exact absurd ⟨pes, les, mes, hpe, hle, hme⟩ hfail
  refine ⟨hcall.trans hcore, ?_⟩
  rw [hcall, hcore]
  simp [mapGet?_set_self]

/-- Witness for `all_or_nothing_assembly` at the concrete failing
environment. -/
theorem all_or_nothing_assembly_witness :
    mapGet? emptyState.pullRequestCache sampleId.id = none
      ∧ failEnv.detail = .ok sampleDetail
      ∧ getPullRequest sampleId false failEnv emptyState
          = (some (assemblyWithPending failEnv.now sampleDetail emptyState),
             { emptyState with pullRequestCache := (mapSet emptyState.pullRequestCache
                 sampleId.id (assemblyWithPending failEnv.now sampleDetail emptyState)) }) :=
  ⟨rfl, rfl,
   (all_or_nothing_assembly sampleId failEnv emptyState sampleDetail [] rfl rfl rfl
     (by rintro ⟨pes, les, mes, -, hle, -⟩; simp [failEnv] at hle)).1⟩

/-- The synthetic pending nodes of a response's timeline. -/
def pendingNodesOf (resp : PRResponse) : List TimelineNode :=
  resp.timeline.filter TimelineNode.isPendingNode

/-- The notes carried by a synthetic pending node. -/
def TimelineNode.pendingNotes : TimelineNode → List PendingNote
  | .pendingReview _ notes => notes
  | _ => []

/-- The state reached by staging two inline review comments in
sequence. -/
def stageTwo (r1 r2 : ReviewCommentRequest) (st0 : GitLabState) : GitLabState :=
  (createPullRequestReviewComment r2 (createPullRequestReviewComment r1 st0).2.1).2.1

/-- Staging two comments for an id with no prior entry leaves the store
with the bare first request followed by the wrapped second one, and the
detail cache entry for the id deleted. -/
theorem stageTwo_store (st0 : GitLabState) (X : MergeRequestFullId)
    (r1 r2 : ReviewCommentRequest)
    (h0 : mapGet? st0.pendingReviewStore X.id = none)
    (h1 : r1.pullRequestId = X) (h2 : r2.pullRequestId = X) :
    (stageTwo r1 r2 st0).pendingReviewStore
        = mapSet (mapSet st0.pendingReviewStore X.id [PendingEntry.raw r1]) X.id
            [PendingEntry.raw r1, PendingEntry.wrapped r2]
      ∧ mapGet? (stageTwo r1 r2 st0).pullRequestCache X.id = none := by
  have hA : (createPullRequestReviewComment r1 st0).2.1
      = { pullRequestCache := mapDelete st0.pullRequestCache X.id,
          pendingReviewStore := mapSet st0.pendingReviewStore X.id [PendingEntry.raw r1] } := by
    simp [createPullRequestReviewComment, h1, mapHas, h0]
  constructor
  · simp only [stageTwo, hA]
    simp [createPullRequestReviewComment, h2, mapHas, mapGet?_set_self]
  · simp only [stageTwo, hA]
    simp [createPullRequestReviewComment, h2, mapHas, mapGet?_set_self, mapGet?_delete_self]

/-- C1 (amended): after staging two inline comments for `X` from a state
with no prior entry, a detail fetch of `X` shows exactly one synthetic
pending discussion node, carrying two notes whose `state` is
`"PENDING"`; calling `submitReview` then rebinds the staged list for `X`
to the empty list regardless of individual post failures — but the key
stays in the store, so a subsequent `hasPendingReview(X)`
(`getPendingReview`) returns `true`, not `false`: it tests key presence,
not list non-emptiness. -/
theorem pending_review_lifecycle (st0 : GitLabState) (X : MergeRequestFullId)
    (r1 r2 : ReviewCommentRequest) (env : FetchEnv) (raw : RawDetail) (aw : List Str)
    (pes : List RawProjectEvent) (les mes : List RawResourceEvent)
    (sreq : SubmitReviewRequest) (postOutcome : Nat → Bool)
    (h0 : mapGet? st0.pendingReviewStore X.id = none)
    (h1 : r1.pullRequestId = X) (h2 : r2.pullRequestId = X)
    (hd : env.detail = .ok raw) (hraw : raw.mergeRequestId = X.id)
    (ha : env.awards = .ok aw) (hpe : env.projectEvents = .ok pes)
    (hle : env.labelEvents = .ok les) (hme : env.milestoneEvents = .ok mes)
    (hs1 : sreq.pullRequestId = X) (hs2 : sreq.eventType = "COMMENT".data) :
    mapGet? (stageTwo r1 r2 st0).pendingReviewStore X.id
        = some [PendingEntry.raw r1, PendingEntry.wrapped r2]
      ∧ getPullRequest X false env (stageTwo r1 r2 st0)
          = (some (finalAssembly env.now raw (stageTwo r1 r2 st0) pes les mes),
             { stageTwo r1 r2 st0 with
                 pullRequestCache := (mapSet (stageTwo r1 r2 st0).pullRequestCache X.id
                   (finalAssembly env.now raw (stageTwo r1 r2 st0) pes les mes)) })
      ∧ pendingNodesOf (finalAssembly env.now raw (stageTwo r1 r2 st0) pes les mes)
          = [pendingReviewNode env.now [PendingEntry.raw r1, PendingEntry.wrapped r2]]
      ∧ (pendingReviewNode env.now
          [PendingEntry.raw r1, PendingEntry.wrapped r2]).pendingNotes.length = 2
      ∧ (∀ nt ∈ (pendingReviewNode env.now
            [PendingEntry.raw r1, PendingEntry.wrapped r2]).pendingNotes,
          nt.state = "PENDING".data)
      ∧ (submitReview sreq postOutcome
            (getPullRequest X false env (stageTwo r1 r2 st0)).2).result = Except.ok true
      ∧ mapGet? (submitReview sreq postOutcome
            (getPullRequest X false env (stageTwo r1 r2 st0)).2).state.pendingReviewStore X.id
          = some []
      ∧ getPendingReview X (submitReview sreq postOutcome
            (getPullRequest X false env (stageTwo r1 r2 st0)).2).state = true := by
  obtain ⟨hstore, hmiss⟩ := stageTwo_store st0 X r1 r2 h0 h1 h2
  have hBstore : mapGet? (stageTwo r1 r2 st0).pendingReviewStore X.id
      = some [PendingEntry.raw r1, PendingEntry.wrapped r2] := by
    rw [hstore]
    exact mapGet?_set_self _ _ _
  have hfetch : getPullRequest X false env (stageTwo r1 r2 st0)
      = (some (finalAssembly env.now raw (stageTwo r1 r2 st0) pes les mes),
         { stageTwo r1 r2 st0 with
             pullRequestCache := (mapSet (stageTwo r1 r2 st0).pullRequestCache X.id
               (finalAssembly env.now raw (stageTwo r1 r2 st0) pes les mes)) }) := by
    simp [getPullRequest, hmiss, getPullRequestCore, hd, ha, hpe, hle, hme]
  have hWP : assemblyWithPending env.now raw (stageTwo r1 r2 st0)
      = { baseAssembly raw with
            pendingReviewCount := some 2,
            timeline := ((baseAssembly raw).timeline
              ++ [pendingReviewNode env.now [PendingEntry.raw r1, PendingEntry.wrapped r2]]) } := by
    simp [assemblyWithPending, hraw, hBstore]
  have hfilter : pendingNodesOf (finalAssembly env.now raw (stageTwo r1 r2 st0) pes les mes)
      = [pendingReviewNode env.now [PendingEntry.raw r1, PendingEntry.wrapped r2]] := by
    simp only [pendingNodesOf, finalAssembly, hWP]
    have hperm :
        List.Perm
          (List.filter TimelineNode.isPendingNode
            (sortNodes (((baseAssembly raw).timeline
              ++ [pendingReviewNode env.now [PendingEntry.raw r1, PendingEntry.wrapped r2]])
              ++ (projectEventsOf pes ++ labelEventsOf les ++ milestoneEventsOf mes))))
          (List.filter TimelineNode.isPendingNode
            (((baseAssembly raw).timeline
              ++ [pendingReviewNode env.now [PendingEntry.raw r1, PendingEntry.wrapped r2]])
              ++ (projectEventsOf pes ++ labelEventsOf les ++ milestoneEventsOf mes))) :=
      (List.perm_insertionSort _ _).filter _
    have hML : List.filter TimelineNode.isPendingNode
          (((baseAssembly raw).timeline
            ++ [pendingReviewNode env.now [PendingEntry.raw r1, PendingEntry.wrapped r2]])
            ++ (projectEventsOf pes ++ labelEventsOf les ++ milestoneEventsOf mes))
        = [pendingReviewNode env.now [PendingEntry.raw r1, PendingEntry.wrapped r2]] := by
      simp [baseAssembly, projectEventsOf, labelEventsOf, milestoneEventsOf,
        List.filter_append, List.filter_map, Function.comp_def, TimelineNode.isPendingNode,
        pendingReviewNode]
    rw [hML] at hperm
    exact List.perm_singleton.mp hperm
  have hstate : (getPullRequest X false env (stageTwo r1 r2 st0)).2.pendingReviewStore
      = (stageTwo r1 r2 st0).pendingReviewStore := by
    rw [hfetch]
  have hsubmit :
      (submitReview sreq postOutcome
          (getPullRequest X false env (stageTwo r1 r2 st0)).2).result = Except.ok true
    ∧ mapGet? (submitReview sreq postOutcome
          (getPullRequest X false env (stageTwo r1 r2 st0)).2).state.pendingReviewStore X.id
        = some []
    ∧ getPendingReview X (submitReview sreq postOutcome
          (getPullRequest X false env (stageTwo r1 r2 st0)).2).state = true := by
    have hc : ¬ ((("COMMENT".data : Str)) ≠ "COMMENT".data
        ∧ (("COMMENT".data : Str)) ≠ "APPROVE".data
        ∧ (("COMMENT".data : Str)) ≠ "REQUEST_CHANGES".data) := fun hx => hx.1 rfl
    have hlook : mapGet? (getPullRequest X false env
          (stageTwo r1 r2 st0)).2.pendingReviewStore X.id
        = some [PendingEntry.raw r1, PendingEntry.wrapped r2] := by
      rw [hstate]
      exact hBstore
    refine ⟨?_, ?_, ?_⟩
    · simp [submitReview, hs2, hs1, hlook]
    · simp [submitReview, hs2, hs1, hlook, mapGet?_set_self, getPendingReview, mapHas]
    · simp [submitReview, hs2, hs1, hlook, mapGet?_set_self, getPendingReview, mapHas]
  exact ⟨hBstore, hfetch, hfilter, rfl, by simp [pendingReviewNode, TimelineNode.pendingNotes,
    pendingNoteOf], hsubmit.1, hsubmit.2.1, hsubmit.2.2⟩

/-- The review submission used by the concrete pending-review scenario. -/
def submitC1 : SubmitReviewRequest :=
  { pullRequestId := sampleId, text := "overall fine".data, eventType := "COMMENT".data }

/-- Witness for `pending_review_lifecycle`: two staged comments, a
fetch, and a submit whose first inline post fails. -/
theorem pending_review_lifecycle_witness :
    mapGet? (stageTwo sampleReview1 sampleReview2 emptyState).pendingReviewStore sampleId.id
        = some [PendingEntry.raw sampleReview1, PendingEntry.wrapped sampleReview2]
      ∧ pendingNodesOf (finalAssembly sampleEnv.now sampleDetail
            (stageTwo sampleReview1 sampleReview2 emptyState) [] [] [])
          = [pendingReviewNode sampleEnv.now
              [PendingEntry.raw sampleReview1, PendingEntry.wrapped sampleReview2]]
      ∧ (pendingReviewNode sampleEnv.now
          [PendingEntry.raw sampleReview1, PendingEntry.wrapped sampleReview2]).pendingNotes.length
          = 2
      ∧ mapGet? (submitReview submitC1 (fun i => decide (i ≠ 0))
            (getPullRequest sampleId false sampleEnv
              (stageTwo sampleReview1 sampleReview2 emptyState)).2).state.pendingReviewStore
            sampleId.id = some []
      ∧ getPendingReview sampleId (submitReview submitC1 (fun i => decide (i ≠ 0))
            (getPullRequest sampleId false sampleEnv
              (stageTwo sampleReview1 sampleReview2 emptyState)).2).state = true := by
  have h := pending_review_lifecycle emptyState sampleId sampleReview1 sampleReview2
    sampleEnv sampleDetail [] [] [] [] submitC1 (fun i => decide (i ≠ 0))
    rfl rfl rfl rfl rfl rfl rfl rfl rfl rfl rfl
  exact ⟨h.1, h.2.2.1, h.2.2.2.1, h.2.2.2.2.2.2.1, h.2.2.2.2.2.2.2⟩

/-- C1 (counterexample): in the concrete two-comment scenario, after
`submitReview` (with one inline post failing) the claimed
`hasPendingReview(X) = false` does not hold — the store keeps the key
bound to an empty list, so `getPendingReview` still returns `true`. -/
theorem pending_review_lifecycle_cex :
    ¬ (getPendingReview sampleId (submitReview submitC1 (fun i => decide (i ≠ 0))
          (getPullRequest sampleId false sampleEnv
            (stageTwo sampleReview1 sampleReview2 emptyState)).2).state = false) := by
  decide
